import Mathlib

/-!
Verification of the scalable-queue repository (slab variant
src/scalable_queue.c and linearizable variant
src/linearizable/scalable_queue.c) against its specification.

The C code is shallowly embedded as a sequential interpreter over an
explicit heap of nodes and head versions.  Heap cells are addressed by
natural numbers; allocation hands out fresh indices.  The atomsnap
library is not part of this repository; its gate is modelled from the
specification (spec section 6.1) as a current-version pointer with a
per-version reference count whose free callback runs when the last
reference on a superseded version is dropped.
-/

namespace SCQ

/-- States of scq_nodes (enum scq_node_state in src/scalable_queue.c). -/
inductive scq_node_state where
  | FREE
  | ENQUEUED
  | DEQUEUED
deriving DecidableEq, Repr

/-- struct scq_node of the slab variant.  The `freed` field models whether
free() has been called on a malloc-backed node (memory returned to the
system allocator); it is not a C field. -/
structure scq_node where
  next : Option Nat := none
  datum : Nat := 0
  state : scq_node_state := .FREE
  is_node_pool : Bool := false
  freed : Bool := false
deriving DecidableEq, Repr

/-- struct scq_head_version.  The top release bit that the C code ORs into
the head_version_prev word (HEAD_VERSION_RELEASE_MASK) is modelled as the
separate boolean `prev_release_bit`; the C word is null exactly when the
pointer part is `none` and the bit is false.  `refcnt` is the atomsnap
gate reference count (collaborator, spec section 6.1) and `freed` models
whether free() has been called on the version object. -/
structure scq_head_version where
  head_version_prev : Option Nat := none
  prev_release_bit : Bool := false
  head_version_next : Option Nat := none
  tail_node : Option Nat := none
  head_node : Option Nat := none
  refcnt : Nat := 0
  freed : Bool := false
deriving DecidableEq, Repr

/-- struct scalable_queue together with the heaps of nodes and head
versions.  `nodes j` for `j < numNodes` are the allocated nodes, and
`versions i` for `i < numVersions` the allocated head versions.
`current` is the atomsnap gate current-version pointer. -/
@[ext] structure SeqState where
  nodes : Nat → scq_node
  numNodes : Nat
  versions : Nat → scq_head_version
  numVersions : Nat
  tail : Option Nat
  current : Option Nat
  head_init_flag : Bool

/-- Pointwise update of one node. -/
def SeqState.setNode (s : SeqState) (i : Nat) (f : scq_node → scq_node) : SeqState :=
  { s with nodes := fun j => if j = i then f (s.nodes j) else s.nodes j }

/-- Pointwise update of one head version. -/
def SeqState.setVersion (s : SeqState) (i : Nat) (f : scq_head_version → scq_head_version) :
    SeqState :=
  { s with versions := fun j => if j = i then f (s.versions j) else s.versions j }

/-- calloc of one struct scq_node: a fresh zeroed node at index numNodes. -/
def SeqState.addNode (s : SeqState) : SeqState :=
  { s with numNodes := s.numNodes + 1,
           nodes := fun j => if j = s.numNodes then {} else s.nodes j }

/-- Modelled from the spec (section 6.1): atomsnap_make_version allocates a
fresh version via the gate-configured allocator scq_head_version_alloc,
which callocs a zeroed struct scq_head_version. -/
def SeqState.addVersion (s : SeqState) : SeqState :=
  { s with numVersions := s.numVersions + 1,
           versions := fun j => if j = s.numVersions then {} else s.versions j }

/-- scq_free_node: return the node into the node pool (state := FREE), or
free() it when it was not carved from the pool. -/
def scq_free_node (s : SeqState) (i : Nat) : SeqState :=
  if (s.nodes i).is_node_pool = false then
    s.setNode i (fun n => { n with freed := true })
  else
    s.setNode i (fun n => { n with state := .FREE })

/-- The C word head_version_prev (pointer ORed with the release mask) is
null exactly when both parts are clear. -/
def prevWordIsNull (v : scq_head_version) : Bool :=
  v.head_version_prev = none && v.prev_release_bit = false

/-- The while loop of scq_head_version_free: walk from head_node and free
every node strictly before tail_node (the caller frees tail_node itself
afterwards, matching the C statement order).  Fuel bounds the walk.  The
`none` arm stands for a malformed range in which the walk reaches a null
node pointer before tail_node: there the C dereferences the null pointer
(node = node->next) and faults; no run proved about in this file reaches
that arm. -/
def freeNodeRange (s : SeqState) (fuel : Nat) (node tail : Option Nat) : SeqState :=
  match fuel with
  | 0 => s
  | fuel + 1 =>
    match node with
    | none => s
    | some i =>
      if some i = tail then s
      else freeNodeRange (scq_free_node s i) fuel ((s.nodes i).next) tail

/-- The free_head_version loop body of scq_head_version_free, reached once
the pre-OR head_version_prev word was observed null: free the node range
[head_node, tail_node], free the version object, then either continue the
cascade on head_version_next (when its release bit is already set, or the
CAS back to null fails) or stop.  Sequentially the CAS never fails.  Fuel
bounds the cascade.  The two `none` arms stand for version states on
which the C dereferences a null pointer — scq_free_node(NULL) reads
node->is_node_pool when tail_node is null, and the cascade loads
next_head_version->head_version_prev when head_version_next is null —
and faults; the callback is only ever invoked on closed versions, whose
tail_node and head_version_next are both set, and no run proved about in
this file reaches these arms (claim C4 restricts its positive part to
that well-formed shape). -/
def scq_head_version_free_go (s : SeqState) (fuel : Nat) (hv : Nat) : SeqState :=
  match fuel with
  | 0 => s
  | fuel + 1 =>
    let v := s.versions hv
    let s1 := freeNodeRange s s.numNodes v.head_node v.tail_node
    let s2 := match v.tail_node with
              | some t => scq_free_node s1 t
              | none => s1
    let s3 := s2.setVersion hv (fun w => { w with freed := true })
    match v.head_version_next with
    | none => s3
    | some nx =>
      if (s3.versions nx).prev_release_bit then
        scq_head_version_free_go s3 fuel nx
      else
        s3.setVersion nx (fun u => { u with head_version_prev := none,
                                            prev_release_bit := false })

/-- scq_head_version_free: atomically OR the release mask into the
head_version_prev word of the version; if the pre-OR word was non-null
this version is not the end of the list and nothing is freed; otherwise
free its node range and the version object and cascade. -/
def scq_head_version_free (s : SeqState) (hv : Nat) : SeqState :=
  let pre := s.versions hv
  let s1 := s.setVersion hv (fun v => { v with prev_release_bit := true })
  if prevWordIsNull pre then scq_head_version_free_go s1 (s1.numVersions + 1) hv
  else s1

/-- Modelled from the spec (section 6.1): atomsnap_acquire_version returns
a reference-counted pointer to the current version. -/
def atomsnap_acquire_version (s : SeqState) : Option Nat × SeqState :=
  match s.current with
  | none => (none, s)
  | some c => (some c, s.setVersion c (fun v => { v with refcnt := v.refcnt + 1 }))

/-- Modelled from the spec (section 6.1): atomsnap_release_version drops
one reference; when the last reference on a version that is no longer the
gate current version drops, the gate invokes the configured free callback
(scq_head_version_free) on it. -/
def atomsnap_release_version (s : SeqState) (hv : Nat) : SeqState :=
  let s1 := s.setVersion hv (fun v => { v with refcnt := v.refcnt - 1 })
  if (s1.versions hv).refcnt = 0 && s1.current ≠ some hv then
    scq_head_version_free s1 hv
  else s1

/-- Modelled from the spec (section 6.1): atomsnap_exchange_version
unconditionally installs the given version as current. -/
def atomsnap_exchange_version (s : SeqState) (hv : Nat) : SeqState :=
  { s with current := some hv }

/-- scq_enqueue of the slab variant, for a thread without a TLS node pool
(scq_allocate_node then uses calloc): allocate a node, set datum and
state, atomically exchange the tail, then either link the previous tail
to the new node or, for the first publisher, install the initial head
version through the gate and set head_init_flag. -/
def scq_enqueue (s : SeqState) (datum : Nat) : SeqState :=
  let nid := s.numNodes
  let s1 := s.addNode
  let s2 := s1.setNode nid (fun n => { n with datum := datum, state := .ENQUEUED })
  let prev_tail := s2.tail
  let s3 := { s2 with tail := some nid }
  match prev_tail with
  | none =>
    let hv := s3.numVersions
    let s4 := s3.addVersion
    let s5 := s4.setVersion hv (fun v => { v with head_version_prev := none,
                                                  head_version_next := none,
                                                  tail_node := none,
                                                  head_node := some nid })
    let s6 := atomsnap_exchange_version s5 hv
    { s6 with head_init_flag := true }
  | some pt => s3.setNode pt (fun n => { n with next := some nid })

/-- Events emitted by adjust_head, in program order of the C source. -/
inductive AdjEvent where
  | make_version (v : Nat)
  | cas_gate (ok : Bool)
  | free_new_version (v : Nat)
  | fence
  | store_head_version_next (target value : Nat)
  | store_tail_node (target value : Nat)
deriving DecidableEq, Repr

/-- adjust_head, instrumented with the list of actions it performs in
program order: make a new version, try to CAS the gate from the previous
head version to it; on failure free the new version and return; on
success fence, then store head_version_next of the previous version, then
store its tail_node. -/
def adjust_head_traced (s : SeqState) (prev_hv new_head_node tail_node_prev : Nat) :
    SeqState × List AdjEvent :=
  let nv := s.numVersions
  let s1 := s.addVersion
  let s2 := s1.setVersion nv (fun v => { v with head_version_prev := some prev_hv,
                                                head_version_next := none,
                                                tail_node := none,
                                                head_node := some new_head_node })
  if s2.current = some prev_hv then
    let s3 := { s2 with current := some nv }
    let s4 := s3.setVersion prev_hv (fun v => { v with head_version_next := some nv })
    let s5 := s4.setVersion prev_hv (fun v => { v with tail_node := some tail_node_prev })
    (s5, [.make_version nv, .cas_gate true, .fence,
          .store_head_version_next prev_hv nv, .store_tail_node prev_hv tail_node_prev])
  else
    (s2.setVersion nv (fun v => { v with freed := true }),
     [.make_version nv, .cas_gate false, .free_new_version nv])

/-- adjust_head as used by scq_dequeue (the state effect of the traced
version). -/
def adjust_head (s : SeqState) (prev_hv new_head_node tail_node_prev : Nat) : SeqState :=
  (adjust_head_traced s prev_hv new_head_node tail_node_prev).1

/-- The traversal loop of scq_dequeue: while the node pointer is non-null
and the tail_node of the held head version is still null, try to claim
the node by atomically exchanging its state to DEQUEUED; deliver the
datum exactly when the exchange returned ENQUEUED, otherwise advance to
next.  Returns the loop exit value of node, the delivered datum when
found, and the state. -/
def dequeue_loop (fuel : Nat) (s : SeqState) (hv : Nat) (node : Option Nat) :
    Option Nat × Option Nat × SeqState :=
  match fuel with
  | 0 => (node, none, s)
  | fuel + 1 =>
    match node with
    | none => (none, none, s)
    | some i =>
      if (s.versions hv).tail_node ≠ none then (some i, none, s)
      else if (s.nodes i).state = .ENQUEUED then
        let old := (s.nodes i).state
        let s1 := s.setNode i (fun n => { n with state := .DEQUEUED })
        if old = .ENQUEUED then (some i, some ((s1.nodes i).datum), s1)
        else dequeue_loop fuel s1 hv ((s1.nodes i).next)
      else dequeue_loop fuel s hv ((s.nodes i).next)

/-- The body of scq_dequeue from the retry label on, with fuel bounding
the number of retries (each retry needs the held version to have been
closed by a concurrent adjust_head; sequentially it never happens). -/
def scq_dequeue_go (retryFuel : Nat) (s : SeqState) : Option Nat × SeqState :=
  match retryFuel with
  | 0 => (none, s)
  | retryFuel + 1 =>
    match atomsnap_acquire_version s with
    | (none, s1) => (none, s1)
    | (some hv, s1) =>
      match dequeue_loop (s1.numNodes + 1) s1 hv ((s1.versions hv).head_node) with
      | (some _, none, s2) => scq_dequeue_go retryFuel (atomsnap_release_version s2 hv)
      | (some i, some d, s2) =>
        let s3 := match (s2.nodes i).next with
                  | some nx => adjust_head s2 hv nx i
                  | none => s2
        (some d, atomsnap_release_version s3 hv)
      | (none, d, s2) => (d, atomsnap_release_version s2 hv)

/-- scq_dequeue of the slab variant.  The C function returns the datum
pointer, NULL when nothing was found; the model returns `some d` exactly
when the C found flag is set with datum d. -/
def scq_dequeue (s : SeqState) : Option Nat × SeqState :=
  if s.head_init_flag = false then (none, s)
  else scq_dequeue_go (s.numNodes + 1) s

/-- scq_init: empty heaps, null tail, gate without a current version,
head_init_flag clear. -/
def scq_init : SeqState :=
  { nodes := fun _ => {}, numNodes := 0,
    versions := fun _ => {}, numVersions := 0,
    tail := none, current := none, head_init_flag := false }

/-- Run one enqueue per list element, left to right. -/
def enqueueN (s : SeqState) (vs : List Nat) : SeqState :=
  vs.foldl scq_enqueue s

/-- Run m dequeues, collecting the returned data. -/
def dequeueN (s : SeqState) (m : Nat) : List (Option Nat) × SeqState :=
  match m with
  | 0 => ([], s)
  | m + 1 =>
    let r := scq_dequeue s
    let rest := dequeueN r.2 m
    (r.1 :: rest.1, rest.2)

/-! ### The per-node claim protocol (claim C1)

A dequeue claims a node by a single atomic exchange of its state to
DEQUEUED.  Because the exchange is one atomic step, any concurrent set of
claim attempts on one node is equivalent to some sequence of exchanges,
so the sequential fold below covers every interleaving of claimers. -/

/-- One claim attempt: atomic_exchange(state, DEQUEUED); it wins exactly
when the returned old value is ENQUEUED. -/
def claimStep (st : scq_node_state) : scq_node_state × Bool :=
  (.DEQUEUED, st = .ENQUEUED)

/-- Number of winning claim attempts among n successive exchanges on one
node flag starting from state st. -/
def runClaims (st : scq_node_state) (n : Nat) : Nat :=
  match n with
  | 0 => 0
  | n + 1 =>
    let r := claimStep st
    (if r.2 then 1 else 0) + runClaims r.1 n

/-! ### The release-bit decision protocol of the reclaimer (claim C4)

Two threads can race for the right to free a head version V that is not
the oldest: the thread dropping the last reference on V (which runs
scq_head_version_free on V and executes atomic_fetch_or on the
head_version_prev word of V), and the thread cascading from the older
version U (which, inside scq_head_version_free of U, loads the word and
either observes the release bit or tries to CAS it back to null).  The
word of V initially holds the pointer to U with the bit clear.  Each
access is one atomic step, so the schedules are the three placements of
the fetch_or among the two cascader steps. -/

/-- The head_version_prev word: pointer part and release bit. -/
structure PrevWord where
  ptr : Option Nat := none
  bit : Bool := false
deriving DecidableEq, Repr

/-- Shared protocol state: the word, whether the own releaser ran and
decided to free, what the cascader has loaded, and whether the cascader
decided to free V (continue its cascade into V). -/
structure ProtState where
  word : PrevWord
  relDone : Bool := false
  relFrees : Bool := false
  cascLoaded : Option PrevWord := none
  cascDone : Bool := false
  cascFrees : Bool := false
deriving DecidableEq, Repr

/-- The own releaser step: atomic_fetch_or of the release mask; V is
freed by this thread exactly when the pre-OR word was null. -/
def relStep (st : ProtState) : ProtState :=
  let old := st.word
  { st with word := { old with bit := true }, relDone := true,
            relFrees := old.ptr = none && old.bit = false }

/-- One cascader step: first the atomic load of the word; then, if the
loaded bit was set, continue the cascade into V (freeing it); otherwise
CAS the word to null — on success stop, on failure continue into V. -/
def cascStep (st : ProtState) : ProtState :=
  match st.cascLoaded with
  | none => { st with cascLoaded := some st.word }
  | some l =>
    if l.bit then { st with cascDone := true, cascFrees := true }
    else if st.word = l then
      { st with word := { ptr := none, bit := false }, cascDone := true, cascFrees := false }
    else { st with cascDone := true, cascFrees := true }

/-- Run a schedule: `true` steps the own releaser, `false` the cascader. -/
def runProtocol (sched : List Bool) (start : ProtState) : ProtState :=
  sched.foldl (fun st b => if b then relStep st else cascStep st) start

/-- Initial protocol state for a version V whose chain predecessor is the
live version with index u: word = pointer to u, bit clear. -/
def protStart (u : Nat) : ProtState :=
  { word := { ptr := some u, bit := false } }

/-! ### The slab node allocator (claim C3) -/

/-- Number of 2 MiB huge pages reserved by the pool (HUGE_PAGE_COUNT). -/
def HUGE_PAGE_COUNT : Nat := 512

/-- struct scq_node_pool (base_addr is implicit: node addresses are
modelled as (huge page index, node slot index) pairs). -/
structure scq_node_pool where
  phys_huge_page_count : Nat
  node_count_per_huge_page : Nat
  current_huge_page_idx : Nat
  current_node_idx : Nat
deriving DecidableEq, Repr

/-- A pool together with the state flags of the nodes laid out in its
pages: `slab p i` is the state of slot i of huge page p. -/
structure SlabState where
  pool : scq_node_pool
  slab : Nat → Nat → scq_node_state

/-- scq_allocate_node for a thread with a TLS node pool.  Returns the
(page, slot) pair the C address arithmetic designates, or `none` for the
calloc fallback when all reserved pages are committed and none has a FREE
last slot.  When the current page has space, the node is
base + HUGE_PAGE_SIZE * current_huge_page_idx
     + sizeof(struct scq_node) * current_node_idx, i.e. slot
current_node_idx.  When the current page is full, the code scans the
committed pages for one whose last slot is FREE (else commits a new one)
and then returns base + HUGE_PAGE_SIZE * new_huge_page_idx +
sizeof(struct scq_node), i.e. slot 1 of that page, and stores 1 into
current_node_idx. -/
def scq_allocate_node (s : SlabState) : Option (Nat × Nat) × SlabState :=
  let p := s.pool
  if p.current_node_idx < p.node_count_per_huge_page then
    (some (p.current_huge_page_idx, p.current_node_idx),
     { s with pool := { p with current_node_idx := p.current_node_idx + 1 } })
  else
    match (List.range p.phys_huge_page_count).find?
        (fun i => s.slab i (p.node_count_per_huge_page - 1) = .FREE) with
    | some i =>
      (some (i, 1),
       { s with pool := { p with current_huge_page_idx := i, current_node_idx := 1 } })
    | none =>
      if p.phys_huge_page_count = HUGE_PAGE_COUNT then (none, s)
      else
        (some (p.phys_huge_page_count, 1),
         { s with pool := { p with phys_huge_page_count := p.phys_huge_page_count + 1,
                                   current_huge_page_idx := p.phys_huge_page_count,
                                   current_node_idx := 1 } })

/-! ### TLS node pool destruction (claim C10) -/

/-- Side effects of scq_destroy_tls_node_pool. -/
inductive TlsEffect where
  | munmap_pages
  | free_pool
deriving DecidableEq, Repr

/-- scq_destroy_tls_node_pool, acting on the thread-local pool pointer
slot for this queue: when the slot is null, return at once with no
effect; otherwise munmap the pages, free the pool object and null the
slot. -/
def scq_destroy_tls_node_pool (slot : Option scq_node_pool) :
    Option scq_node_pool × List TlsEffect :=
  match slot with
  | none => (none, [])
  | some _ => (none, [.munmap_pages, .free_pool])

/-! ### Enqueue with the allocation outcome made explicit (claim C9) -/

/-- Outcome of one scq_enqueue call.  The C code has no path that reports
an allocation failure to the caller (the function returns void and does
not test the allocator result): `allocFailReported` is the outcome the
claim describes, produced by no run of the code. -/
inductive EnqueueResult where
  | published (s : SeqState)
  | nullDeref
  | allocFailReported

/-- scq_enqueue with the allocator outcome as a parameter: on success the
body of scq_enqueue runs; when the allocator returns NULL, the very next
statement node->datum = datum dereferences the null pointer. -/
def scq_enqueue_checkAlloc (allocOk : Bool) (s : SeqState) (datum : Nat) : EnqueueResult :=
  if allocOk then .published (scq_enqueue s datum) else .nullDeref

/-! ### The linearizable variant (src/linearizable/scalable_queue.c)

Same list and gate structure; nodes carry an is_dequeued flag instead of
the tri-state, all nodes are malloc-backed, and scq_dequeue takes an out
parameter for the datum.  Inside that scq_dequeue the parameter is
shadowed by the local declaration void *datum = NULL, so the store
*datum = node->datum does not target the caller cell. -/

/-- struct scq_node of the linearizable variant. -/
structure lin_scq_node where
  next : Option Nat := none
  datum : Nat := 0
  is_dequeued : Nat := 0
  freed : Bool := false
deriving DecidableEq, Repr

/-- Queue state of the linearizable variant. -/
structure LinState where
  nodes : Nat → lin_scq_node
  numNodes : Nat
  versions : Nat → scq_head_version
  numVersions : Nat
  tail : Option Nat
  current : Option Nat
  head_init_flag : Bool

/-- Pointwise update of one node. -/
def LinState.setNode (s : LinState) (i : Nat) (f : lin_scq_node → lin_scq_node) : LinState :=
  { s with nodes := fun j => if j = i then f (s.nodes j) else s.nodes j }

/-- Pointwise update of one head version. -/
def LinState.setVersion (s : LinState) (i : Nat) (f : scq_head_version → scq_head_version) :
    LinState :=
  { s with versions := fun j => if j = i then f (s.versions j) else s.versions j }

/-- calloc of one node. -/
def LinState.addNode (s : LinState) : LinState :=
  { s with numNodes := s.numNodes + 1,
           nodes := fun j => if j = s.numNodes then {} else s.nodes j }

/-- Modelled from the spec (section 6.1): atomsnap_make_version. -/
def LinState.addVersion (s : LinState) : LinState :=
  { s with numVersions := s.numVersions + 1,
           versions := fun j => if j = s.numVersions then {} else s.versions j }

/-- The while loop of the linearizable scq_head_version_free (all nodes
are freed with free()).  As in the slab walk, the `none` arm stands for
a malformed range in which the C would dereference a null node pointer;
it is unreached in the runs proved about here. -/
def lin_freeNodeRange (s : LinState) (fuel : Nat) (node tail : Option Nat) : LinState :=
  match fuel with
  | 0 => s
  | fuel + 1 =>
    match node with
    | none => s
    | some i =>
      if some i = tail then s
      else lin_freeNodeRange (s.setNode i (fun n => { n with freed := true })) fuel
        ((s.nodes i).next) tail

/-- The free_head_version loop body of the linearizable
scq_head_version_free.  The tail_node `none` arm is faithful here — all
nodes are freed with free(), and free(NULL) is a no-op — but the
head_version_next `none` arm stands for the C's unconditional null load
of next_head_version->head_version_prev, on which it faults; the
callback is only invoked on closed versions, where both are set. -/
def lin_scq_head_version_free_go (s : LinState) (fuel : Nat) (hv : Nat) : LinState :=
  match fuel with
  | 0 => s
  | fuel + 1 =>
    let v := s.versions hv
    let s1 := lin_freeNodeRange s s.numNodes v.head_node v.tail_node
    let s2 := match v.tail_node with
              | some t => s1.setNode t (fun n => { n with freed := true })
              | none => s1
    let s3 := s2.setVersion hv (fun w => { w with freed := true })
    match v.head_version_next with
    | none => s3
    | some nx =>
      if (s3.versions nx).prev_release_bit then
        lin_scq_head_version_free_go s3 fuel nx
      else
        s3.setVersion nx (fun u => { u with head_version_prev := none,
                                            prev_release_bit := false })

/-- The linearizable scq_head_version_free (same code as the slab one up
to node freeing). -/
def lin_scq_head_version_free (s : LinState) (hv : Nat) : LinState :=
  let pre := s.versions hv
  let s1 := s.setVersion hv (fun v => { v with prev_release_bit := true })
  if prevWordIsNull pre then lin_scq_head_version_free_go s1 (s1.numVersions + 1) hv
  else s1

/-- Modelled from the spec (section 6.1): atomsnap_acquire_version. -/
def lin_acquire_version (s : LinState) : Option Nat × LinState :=
  match s.current with
  | none => (none, s)
  | some c => (some c, s.setVersion c (fun v => { v with refcnt := v.refcnt + 1 }))

/-- Modelled from the spec (section 6.1): atomsnap_release_version. -/
def lin_release_version (s : LinState) (hv : Nat) : LinState :=
  let s1 := s.setVersion hv (fun v => { v with refcnt := v.refcnt - 1 })
  if (s1.versions hv).refcnt = 0 && s1.current ≠ some hv then
    lin_scq_head_version_free s1 hv
  else s1

/-- adjust_head of the linearizable variant (same code as the slab one). -/
def lin_adjust_head (s : LinState) (prev_hv new_head_node tail_node_prev : Nat) : LinState :=
  let nv := s.numVersions
  let s1 := s.addVersion
  let s2 := s1.setVersion nv (fun v => { v with head_version_prev := some prev_hv,
                                                head_version_next := none,
                                                tail_node := none,
                                                head_node := some new_head_node })
  if s2.current = some prev_hv then
    let s3 := { s2 with current := some nv }
    let s4 := s3.setVersion prev_hv (fun v => { v with head_version_next := some nv })
    s4.setVersion prev_hv (fun v => { v with tail_node := some tail_node_prev })
  else
    s2.setVersion nv (fun v => { v with freed := true })

/-- scq_enqueue of the linearizable variant. -/
def lin_scq_enqueue (s : LinState) (datum : Nat) : LinState :=
  let nid := s.numNodes
  let s1 := s.addNode
  let s2 := s1.setNode nid (fun n => { n with datum := datum })
  let prev_tail := s2.tail
  let s3 := { s2 with tail := some nid }
  match prev_tail with
  | none =>
    let hv := s3.numVersions
    let s4 := s3.addVersion
    let s5 := s4.setVersion hv (fun v => { v with head_version_prev := none,
                                                  head_version_next := none,
                                                  tail_node := none,
                                                  head_node := some nid })
    let s6 := { s5 with current := some hv }
    { s6 with head_init_flag := true }
  | some pt => s3.setNode pt (fun n => { n with next := some nid })

/-- The traversal loop of the linearizable scq_dequeue: claims a node by
atomic_exchange(is_dequeued, 1) returning 0.  On success the C code
stores the datum through the shadowing local datum pointer, never through
the caller out parameter. -/
def lin_dequeue_loop (fuel : Nat) (s : LinState) (hv : Nat) (node : Option Nat) :
    Option Nat × Option Nat × LinState :=
  match fuel with
  | 0 => (node, none, s)
  | fuel + 1 =>
    match node with
    | none => (none, none, s)
    | some i =>
      if (s.versions hv).tail_node ≠ none then (some i, none, s)
      else if (s.nodes i).is_dequeued = 0 then
        let old := (s.nodes i).is_dequeued
        let s1 := s.setNode i (fun n => { n with is_dequeued := 1 })
        if old = 0 then (some i, some ((s1.nodes i).datum), s1)
        else lin_dequeue_loop fuel s1 hv ((s1.nodes i).next)
      else lin_dequeue_loop fuel s hv ((s.nodes i).next)

/-- The body of the linearizable scq_dequeue from the retry label on. -/
def lin_scq_dequeue_go (retryFuel : Nat) (s : LinState) : Bool × LinState :=
  match retryFuel with
  | 0 => (false, s)
  | retryFuel + 1 =>
    match lin_acquire_version s with
    | (none, s1) => (false, s1)
    | (some hv, s1) =>
      match lin_dequeue_loop (s1.numNodes + 1) s1 hv ((s1.versions hv).head_node) with
      | (some _, none, s2) => lin_scq_dequeue_go retryFuel (lin_release_version s2 hv)
      | (some i, some _, s2) =>
        let s3 := match (s2.nodes i).next with
                  | some nx => lin_adjust_head s2 hv nx i
                  | none => s2
        (true, lin_release_version s3 hv)
      | (none, d, s2) => (d.isSome, lin_release_version s2 hv)

/-- The linearizable scq_dequeue, with the caller out-parameter cell made
explicit: `cell` holds the pre-call contents of *datum and the middle
component of the result its post-call contents.  The parameter is
shadowed inside the function by the local void *datum = NULL, so no store
in the body targets the cell and it is returned unchanged. -/
def lin_scq_dequeue (s : LinState) (cell : Nat) : Bool × Nat × LinState :=
  if s.head_init_flag = false then (false, cell, s)
  else
    let r := lin_scq_dequeue_go (s.numNodes + 1) s
    (r.1, cell, r.2)

/-- scq_init of the linearizable variant. -/
def lin_scq_init : LinState :=
  { nodes := fun _ => {}, numNodes := 0,
    versions := fun _ => {}, numVersions := 0,
    tail := none, current := none, head_init_flag := false }

/-- Run m dequeues of the linearizable variant with a fixed out cell,
collecting the found flags. -/
def lin_dequeueN (s : LinState) (cell : Nat) (m : Nat) : List Bool × LinState :=
  match m with
  | 0 => ([], s)
  | m + 1 =>
    let r := lin_scq_dequeue s cell
    let rest := lin_dequeueN r.2.2 cell m
    (r.1 :: rest.1, rest.2)

/-! ### Closed-form states of the single-producer single-consumer run
(claim C2)

For a single thread enqueueing the n datums of vs and then dequeueing,
the queue passes through fully explicit states: after k dequeues, nodes
0..k-1 are claimed (and all but the last node freed by the reclaimer),
versions 0..k-1 have been closed and freed, and version min k (n-1) is
current, covering node min k (n-1) onward. -/

/-- Node j after the enqueues of vs and k dequeues: chain link j -> j+1,
datum vs[j]; the first k nodes are DEQUEUED; a claimed node is freed when
a newer head version superseded the one covering it, which holds for all
claimed nodes except the very last node of the run. -/
def deqNode (vs : List Nat) (k j : Nat) : scq_node :=
  { next := if j + 1 < vs.length then some (j + 1) else none,
    datum := vs.getD j 0,
    state := if j < k then .DEQUEUED else .ENQUEUED,
    is_node_pool := false,
    freed := decide (j < min k (vs.length - 1)) }

/-- Head version i after k dequeues of the vs run: versions strictly
below the current index min k (n-1) are closed (tail_node = their own
head node i, successor link i+1) and freed, with the release bit set by
their freeing callback; the current version is open: tail_node null, no
successor, clear bit, and its head_version_prev already reset to null by
the cascade CAS of its predecessor's callback (trivially null for
version 0). -/
def deqVersion (vs : List Nat) (k i : Nat) : scq_head_version :=
  if i < min k (vs.length - 1) then
    { head_version_prev := none, prev_release_bit := true,
      head_version_next := some (i + 1), tail_node := some i, head_node := some i,
      refcnt := 0, freed := true }
  else
    { head_version_prev := none, prev_release_bit := false,
      head_version_next := none, tail_node := none, head_node := some i,
      refcnt := 0, freed := false }

/-- The queue state after the n enqueues of vs (n = |vs| >= 1) followed
by k <= n dequeues. -/
def stateAfterDeq (vs : List Nat) (k : Nat) : SeqState :=
  { nodes := fun j => if j < vs.length then deqNode vs k j else {},
    numNodes := vs.length,
    versions := fun i => if i < min (k + 1) vs.length then deqVersion vs k i else {},
    numVersions := min (k + 1) vs.length,
    tail := some (vs.length - 1),
    current := some (min k (vs.length - 1)),
    head_init_flag := true }

/-! ### Concrete states used by witnesses -/

/-- The queue after a single enqueue of 5 from the initial state. -/
def oneEnqueue : SeqState := scq_enqueue scq_init 5

/-- A linearizable queue holding one node with datum 7. -/
def lin_oneEnqueue : LinState := lin_scq_enqueue lin_scq_init 7

/-- The TLS pool state exhibiting the duplicate-carve bug: one committed
huge page of 65536 node slots (the create-time value HUGE_PAGE_SIZE /
sizeof(struct scq_node) = 2 MiB / 32 B), the current page exhausted,
every slot FREE. -/
def slabFailingInput : SlabState :=
  { pool := { phys_huge_page_count := 1, node_count_per_huge_page := 65536,
              current_huge_page_idx := 0, current_node_idx := 65536 },
    slab := fun _ _ => .FREE }

/-- The queue state of a two-node drain at the instant the last
reference on version 0 drops and the reclaimer callback is invoked on
it: node 0 has been claimed, adjust_head has installed version 1
(current, covering node 1) and closed version 0 — head_node = tail_node
= node 0, head_version_next = version 1, version 1's head_version_prev
still pointing at version 0 with the release bit clear.  This is
exactly the state the dequeue of the C2 drain passes to
scq_head_version_free (the S8 state of dequeue_step at k = 0 for
vs = [5, 6]). -/
def reclaimWitnessState : SeqState :=
  { nodes := fun j =>
      if j = 0 then { next := some 1, datum := 5, state := .DEQUEUED }
      else if j = 1 then { next := none, datum := 6, state := .ENQUEUED }
      else {},
    numNodes := 2,
    versions := fun i =>
      if i = 0 then
        { head_version_prev := none, prev_release_bit := false,
          head_version_next := some 1, tail_node := some 0, head_node := some 0,
          refcnt := 0, freed := false }
      else if i = 1 then
        { head_version_prev := some 0, prev_release_bit := false,
          head_version_next := none, tail_node := none, head_node := some 1,
          refcnt := 0, freed := false }
      else {},
    numVersions := 2,
    tail := some 1, current := some 1, head_init_flag := true }

/-- A state with two head versions where version 1 still has its chain
predecessor (version 0) in head_version_prev: the shape on which the
reclaimer callback must refuse to free. -/
def c4WitnessState : SeqState :=
  { nodes := fun _ => {}, numNodes := 0,
    versions := fun j => if j = 1 then { head_version_prev := some 0 } else {},
    numVersions := 2,
    tail := none, current := none, head_init_flag := true }

/-! ## Basic projection lemmas -/

@[simp] theorem setNode_nodes (s : SeqState) (i : Nat) (f : scq_node → scq_node) (j : Nat) :
    (s.setNode i f).nodes j = if j = i then f (s.nodes j) else s.nodes j := rfl

@[simp] theorem setNode_numNodes (s : SeqState) (i : Nat) (f : scq_node → scq_node) :
    (s.setNode i f).numNodes = s.numNodes := rfl

@[simp] theorem setNode_versions (s : SeqState) (i : Nat) (f : scq_node → scq_node) :
    (s.setNode i f).versions = s.versions := rfl

@[simp] theorem setNode_numVersions (s : SeqState) (i : Nat) (f : scq_node → scq_node) :
    (s.setNode i f).numVersions = s.numVersions := rfl

@[simp] theorem setNode_tail (s : SeqState) (i : Nat) (f : scq_node → scq_node) :
    (s.setNode i f).tail = s.tail := rfl

@[simp] theorem setNode_current (s : SeqState) (i : Nat) (f : scq_node → scq_node) :
    (s.setNode i f).current = s.current := rfl

@[simp] theorem setNode_flag (s : SeqState) (i : Nat) (f : scq_node → scq_node) :
    (s.setNode i f).head_init_flag = s.head_init_flag := rfl

@[simp] theorem setVersion_versions (s : SeqState) (i : Nat)
    (f : scq_head_version → scq_head_version) (j : Nat) :
    (s.setVersion i f).versions j = if j = i then f (s.versions j) else s.versions j := rfl

@[simp] theorem setVersion_nodes (s : SeqState) (i : Nat)
    (f : scq_head_version → scq_head_version) :
    (s.setVersion i f).nodes = s.nodes := rfl

@[simp] theorem setVersion_numNodes (s : SeqState) (i : Nat)
    (f : scq_head_version → scq_head_version) :
    (s.setVersion i f).numNodes = s.numNodes := rfl

@[simp] theorem setVersion_numVersions (s : SeqState) (i : Nat)
    (f : scq_head_version → scq_head_version) :
    (s.setVersion i f).numVersions = s.numVersions := rfl

@[simp] theorem setVersion_tail (s : SeqState) (i : Nat)
    (f : scq_head_version → scq_head_version) :
    (s.setVersion i f).tail = s.tail := rfl

@[simp] theorem setVersion_current (s : SeqState) (i : Nat)
    (f : scq_head_version → scq_head_version) :
    (s.setVersion i f).current = s.current := rfl

@[simp] theorem setVersion_flag (s : SeqState) (i : Nat)
    (f : scq_head_version → scq_head_version) :
    (s.setVersion i f).head_init_flag = s.head_init_flag := rfl

@[simp] theorem addNode_nodes (s : SeqState) (j : Nat) :
    s.addNode.nodes j = if j = s.numNodes then {} else s.nodes j := rfl

@[simp] theorem addNode_numNodes (s : SeqState) : s.addNode.numNodes = s.numNodes + 1 := rfl

@[simp] theorem addNode_versions (s : SeqState) : s.addNode.versions = s.versions := rfl

@[simp] theorem addNode_numVersions (s : SeqState) :
    s.addNode.numVersions = s.numVersions := rfl

@[simp] theorem addNode_tail (s : SeqState) : s.addNode.tail = s.tail := rfl

@[simp] theorem addNode_current (s : SeqState) : s.addNode.current = s.current := rfl

@[simp] theorem addNode_flag (s : SeqState) :
    s.addNode.head_init_flag = s.head_init_flag := rfl

@[simp] theorem addVersion_versions (s : SeqState) (j : Nat) :
    s.addVersion.versions j = if j = s.numVersions then {} else s.versions j := rfl

@[simp] theorem addVersion_numVersions (s : SeqState) :
    s.addVersion.numVersions = s.numVersions + 1 := rfl

@[simp] theorem addVersion_nodes (s : SeqState) : s.addVersion.nodes = s.nodes := rfl

@[simp] theorem addVersion_numNodes (s : SeqState) :
    s.addVersion.numNodes = s.numNodes := rfl

@[simp] theorem addVersion_tail (s : SeqState) : s.addVersion.tail = s.tail := rfl

@[simp] theorem addVersion_current (s : SeqState) : s.addVersion.current = s.current := rfl

@[simp] theorem addVersion_flag (s : SeqState) :
    s.addVersion.head_init_flag = s.head_init_flag := rfl

/-! ## Claim C10 -/

/-- Claim C10: scq_destroy_tls_node_pool is idempotent and safe without a
prior create.  On a null thread-local pool slot it returns at once with
no effects; after any first call the slot is null, so a second call
leaves the slot as the first call left it and performs no effects. -/
theorem destroy_tls_node_pool_idempotent (slot : Option scq_node_pool) :
    scq_destroy_tls_node_pool none = (none, []) ∧
    (scq_destroy_tls_node_pool (scq_destroy_tls_node_pool slot).1).1
      = (scq_destroy_tls_node_pool slot).1 ∧
    (scq_destroy_tls_node_pool (scq_destroy_tls_node_pool slot).1).2 = [] := by
  refine ⟨rfl, ?_, ?_⟩ <;> cases slot <;> rfl

/-! ## Claim C3 -/

/-- Claim C3 fails on the code: with the current huge page exhausted and
page 0 selected because its last slot is FREE, scq_allocate_node returns
the node at byte offset sizeof(struct scq_node) — slot 1, not slot 0 —
and stores 1 into current_node_idx, so the immediately following pool
allocation (with no intervening free) returns the very same slot (0, 1)
again; slot 0 of the reused page is never carved. -/
theorem scq_allocate_node_duplicate_slot :
    (scq_allocate_node slabFailingInput).1 = some (0, 1) ∧
    (scq_allocate_node (scq_allocate_node slabFailingInput).2).1 = some (0, 1) := by
  exact ⟨rfl, rfl⟩

/-! ## Claim C9 -/

/-- Claim C9 as stated is false at a concrete input: when the node
allocation in scq_enqueue returns NULL, the code does not report the
failure — the unchecked statement node->datum = datum dereferences the
null pointer. -/
theorem scq_enqueue_alloc_failure_not_reported :
    scq_enqueue_checkAlloc false scq_init 0 = .nullDeref ∧
    scq_enqueue_checkAlloc false scq_init 0 ≠ .allocFailReported := by
  exact ⟨rfl, fun h => EnqueueResult.noConfusion h⟩

/-- Claim C9 amended: when node allocation succeeds, scq_enqueue cannot
fail and publishes exactly one node carrying datum (one fresh node, with
the given datum, state ENQUEUED, installed as the tail, all other nodes
keeping their datum); when allocation returns null, the code dereferences
the null pointer instead of reporting the failure. -/
theorem scq_enqueue_alloc_behaviour (s : SeqState) (d : Nat) :
    (scq_enqueue_checkAlloc true s d = .published (scq_enqueue s d) ∧
     (scq_enqueue s d).numNodes = s.numNodes + 1 ∧
     ((scq_enqueue s d).nodes s.numNodes).datum = d ∧
     ((scq_enqueue s d).nodes s.numNodes).state = .ENQUEUED ∧
     (scq_enqueue s d).tail = some s.numNodes ∧
     (∀ j, j ≠ s.numNodes → ((scq_enqueue s d).nodes j).datum = (s.nodes j).datum)) ∧
    scq_enqueue_checkAlloc false s d = .nullDeref := by
  refine ⟨⟨rfl, ?_, ?_, ?_, ?_, ?_⟩, rfl⟩
  · cases h : s.tail <;>
      simp [scq_enqueue, h, SeqState.setNode, SeqState.addNode, atomsnap_exchange_version,
        SeqState.setVersion, SeqState.addVersion]
  · cases h : s.tail with
    | none =>
      simp [scq_enqueue, h, SeqState.setNode, SeqState.addNode, atomsnap_exchange_version,
        SeqState.setVersion, SeqState.addVersion]
    | some pt =>
      simp only [scq_enqueue, h, SeqState.setNode, SeqState.addNode]
      split <;> rfl
  · cases h : s.tail with
    | none =>
      simp [scq_enqueue, h, SeqState.setNode, SeqState.addNode, atomsnap_exchange_version,
        SeqState.setVersion, SeqState.addVersion]
    | some pt =>
      simp only [scq_enqueue, h, SeqState.setNode, SeqState.addNode]
      split <;> rfl
  · cases h : s.tail <;>
      simp [scq_enqueue, h, SeqState.setNode, SeqState.addNode, atomsnap_exchange_version,
        SeqState.setVersion, SeqState.addVersion]
  · intro j hj
    cases h : s.tail with
    | none =>
      simp [scq_enqueue, h, SeqState.setNode, SeqState.addNode, atomsnap_exchange_version,
        SeqState.setVersion, SeqState.addVersion, hj]
    | some pt =>
      simp only [scq_enqueue, h, SeqState.setNode, SeqState.addNode]
      by_cases hpt : j = pt
      · subst hpt; simp [hj]
      · simp [hpt, hj]

/-! ## Claim C5 -/

/-- Claim C5: in scq_enqueue, when the atomic exchange on the tail
returned a previous tail, the new node (index numNodes of the pre state)
is stored into the next field of that previous tail and the head gate is
untouched (current version, version count and head_init_flag unchanged);
when the exchange returned null, a fresh head version with head_node the
new node and tail_node null is installed through the gate and
head_init_flag is set. -/
theorem scq_enqueue_publication (s : SeqState) (d : Nat) :
    (∀ pt, s.tail = some pt →
      ((scq_enqueue s d).nodes pt).next = some s.numNodes ∧
      (scq_enqueue s d).current = s.current ∧
      (scq_enqueue s d).numVersions = s.numVersions ∧
      (scq_enqueue s d).head_init_flag = s.head_init_flag) ∧
    (s.tail = none →
      (scq_enqueue s d).current = some s.numVersions ∧
      ((scq_enqueue s d).versions s.numVersions).head_node = some s.numNodes ∧
      ((scq_enqueue s d).versions s.numVersions).tail_node = none ∧
      (scq_enqueue s d).head_init_flag = true) := by
  constructor
  · intro pt h
    refine ⟨?_, ?_, ?_, ?_⟩ <;>
      simp [scq_enqueue, h, SeqState.setNode, SeqState.addNode]
  · intro h
    refine ⟨?_, ?_, ?_, ?_⟩ <;>
      simp [scq_enqueue, h, SeqState.setNode, SeqState.addNode, SeqState.setVersion,
        SeqState.addVersion, atomsnap_exchange_version]

/-- Witness for C5: on a queue holding one node the next enqueue links
node 0 to the new node 1 and leaves the gate alone; on the empty queue
the first enqueue installs the initial head version and sets the flag. -/
theorem scq_enqueue_publication_witness :
    (oneEnqueue.tail = some 0 ∧
     ((scq_enqueue oneEnqueue 9).nodes 0).next = some 1 ∧
     (scq_enqueue oneEnqueue 9).current = oneEnqueue.current) ∧
    (scq_init.tail = none ∧
     (scq_enqueue scq_init 9).current = some 0 ∧
     (scq_enqueue scq_init 9).head_init_flag = true) :=
  ⟨⟨rfl, ((scq_enqueue_publication oneEnqueue 9).1 0 rfl).1,
        ((scq_enqueue_publication oneEnqueue 9).1 0 rfl).2.1⟩,
   ⟨rfl, ((scq_enqueue_publication scq_init 9).2 rfl).1,
        ((scq_enqueue_publication scq_init 9).2 rfl).2.2.2⟩⟩

/-! ## Claim C6 -/

/-- Claim C6: adjust_head is best-effort and atomic on failure.  When the
gate compare-exchange fails, the freshly made version (index numVersions
of the pre state) is freed and nothing else changes: nodes, gate current,
tail and every other version are untouched, and the action trace holds no
store event.  When it succeeds, the action trace is make-version,
successful CAS, fence, store of head_version_next of the previous
version, store of its tail_node — so head_version_next is written before
tail_node becomes non-null, and afterwards the previous version links to
the new one and carries the given tail node. -/
theorem adjust_head_atomic (s : SeqState) (prev_hv nh tp : Nat) :
    (s.current ≠ some prev_hv →
      (adjust_head_traced s prev_hv nh tp).1.nodes = s.nodes ∧
      (adjust_head_traced s prev_hv nh tp).1.current = s.current ∧
      (adjust_head_traced s prev_hv nh tp).1.tail = s.tail ∧
      (∀ j, j ≠ s.numVersions →
        (adjust_head_traced s prev_hv nh tp).1.versions j = s.versions j) ∧
      ((adjust_head_traced s prev_hv nh tp).1.versions s.numVersions).freed = true ∧
      (adjust_head_traced s prev_hv nh tp).2 =
        [.make_version s.numVersions, .cas_gate false, .free_new_version s.numVersions]) ∧
    (s.current = some prev_hv →
      (adjust_head_traced s prev_hv nh tp).2 =
        [.make_version s.numVersions, .cas_gate true, .fence,
         .store_head_version_next prev_hv s.numVersions, .store_tail_node prev_hv tp] ∧
      (∃ pre mid post : List AdjEvent,
        (adjust_head_traced s prev_hv nh tp).2 =
          pre ++ .store_head_version_next prev_hv s.numVersions ::
            (mid ++ .store_tail_node prev_hv tp :: post)) ∧
      ((adjust_head_traced s prev_hv nh tp).1.versions prev_hv).head_version_next
        = some s.numVersions ∧
      ((adjust_head_traced s prev_hv nh tp).1.versions prev_hv).tail_node = some tp) := by
  constructor
  · intro h
    refine ⟨?_, ?_, ?_, ?_, ?_, ?_⟩
    · simp [adjust_head_traced, h, SeqState.setVersion, SeqState.addVersion]
    · simp [adjust_head_traced, h, SeqState.setVersion, SeqState.addVersion]
    · simp [adjust_head_traced, h, SeqState.setVersion, SeqState.addVersion]
    · intro j hj
      simp [adjust_head_traced, h, SeqState.setVersion, SeqState.addVersion, hj]
    · simp [adjust_head_traced, h, SeqState.setVersion, SeqState.addVersion]
    · simp [adjust_head_traced, h, SeqState.setVersion, SeqState.addVersion]
  · intro h
    refine ⟨?_, ⟨[.make_version s.numVersions, .cas_gate true, .fence], [], [], ?_⟩, ?_, ?_⟩ <;>
      simp [adjust_head_traced, h, SeqState.setVersion, SeqState.addVersion]

/-- Witness for C6: on the empty queue the gate holds no version, so the
CAS against version 0 fails and the trace shows only the allocation, the
failed CAS and the free; on a one-node queue the CAS against the current
version 0 succeeds and the previous version ends up linked to the new
version 1 with tail node 0. -/
theorem adjust_head_atomic_witness :
    (scq_init.current ≠ some 0 ∧
     (adjust_head_traced scq_init 0 1 0).2 =
       [.make_version 0, .cas_gate false, .free_new_version 0]) ∧
    (oneEnqueue.current = some 0 ∧
     (adjust_head_traced oneEnqueue 0 1 0).2 =
       [.make_version 1, .cas_gate true, .fence,
        .store_head_version_next 0 1, .store_tail_node 0 0] ∧
     ((adjust_head_traced oneEnqueue 0 1 0).1.versions 0).tail_node = some 0) :=
  ⟨⟨fun h => Option.noConfusion h,
    ((adjust_head_atomic scq_init 0 1 0).1 (fun h => Option.noConfusion h)).2.2.2.2.2⟩,
   ⟨rfl, ((adjust_head_atomic oneEnqueue 0 1 0).2 rfl).1,
    ((adjust_head_atomic oneEnqueue 0 1 0).2 rfl).2.2.2⟩⟩

/-! ## Claim C7 -/

/-- Claim C7: on a queue whose head_init_flag is still clear, scq_dequeue
returns not-found at once — NULL in the slab variant, false in the
linearizable variant — with the state returned exactly as it was (so no
allocation and no modification of queue, gate or nodes), and any number
of repeated calls keeps returning not-found. -/
theorem dequeue_uninitialized (s : SeqState) (t : LinState) (cell m : Nat)
    (hs : s.head_init_flag = false) (ht : t.head_init_flag = false) :
    scq_dequeue s = (none, s) ∧
    dequeueN s m = (List.replicate m none, s) ∧
    lin_scq_dequeue t cell = (false, cell, t) ∧
    lin_dequeueN t cell m = (List.replicate m false, t) := by
  have h1 : scq_dequeue s = (none, s) := by simp [scq_dequeue, hs]
  have h2 : lin_scq_dequeue t cell = (false, cell, t) := by simp [lin_scq_dequeue, ht]
  refine ⟨h1, ?_, h2, ?_⟩
  · induction m with
    | zero => rfl
    | succ m ih => simp [dequeueN, h1, ih, List.replicate_succ]
  · induction m with
    | zero => rfl
    | succ m ih => simp [lin_dequeueN, h2, ih, List.replicate_succ]

/-- Witness for C7: the freshly initialized queues have the flag clear
and three repeated dequeues all return not-found without any change. -/
theorem dequeue_uninitialized_witness :
    scq_init.head_init_flag = false ∧
    lin_scq_init.head_init_flag = false ∧
    dequeueN scq_init 3 = ([none, none, none], scq_init) ∧
    lin_dequeueN lin_scq_init 42 3 = ([false, false, false], lin_scq_init) :=
  ⟨rfl, rfl,
   (dequeue_uninitialized scq_init lin_scq_init 42 3 rfl rfl).2.1,
   (dequeue_uninitialized scq_init lin_scq_init 42 3 rfl rfl).2.2.2⟩

/-! ## Claim C8 -/

/-- Claim C8: in the linearizable variant the caller out-parameter cell
is never written — the parameter is shadowed by the local
void *datum = NULL inside the function, so the store on a successful
claim does not target the caller cell, which keeps its pre-call contents
whatever the call returns, in particular when it returns true. -/
theorem lin_dequeue_out_param_not_written (s : LinState) (cell : Nat)
    (_hfound : (lin_scq_dequeue s cell).1 = true) :
    (lin_scq_dequeue s cell).2.1 = cell := by
  unfold lin_scq_dequeue
  split <;> rfl

/-- Witness for C8: on a one-node queue the dequeue succeeds (returns
true) yet the out cell still holds its pre-call contents 42. -/
theorem lin_dequeue_out_param_witness :
    (lin_scq_dequeue lin_oneEnqueue 42).1 = true ∧
    (lin_scq_dequeue lin_oneEnqueue 42).2.1 = 42 :=
  ⟨rfl, lin_dequeue_out_param_not_written lin_oneEnqueue 42 rfl⟩

/-! ## Claim C1: helper lemmas -/

/-- A claim sequence on a node whose flag is not ENQUEUED wins nothing:
every exchange returns a non-ENQUEUED value and leaves DEQUEUED behind. -/
theorem runClaims_of_ne_enqueued (n : Nat) :
    ∀ st : scq_node_state, st ≠ .ENQUEUED → runClaims st n = 0 := by
  induction n with
  | zero => intro st _; rfl
  | succ n ih =>
    intro st h
    simp only [runClaims, claimStep]
    rw [if_neg (by simpa using h)]
    simpa using ih .DEQUEUED (by simp)

/-- The dequeue traversal never resets a DEQUEUED flag: node states are
only ever exchanged to DEQUEUED. -/
theorem dequeue_loop_keeps_dequeued (fuel : Nat) :
    ∀ (s : SeqState) (hv : Nat) (start : Option Nat) (j : Nat),
      (s.nodes j).state = .DEQUEUED →
      ((dequeue_loop fuel s hv start).2.2.nodes j).state = .DEQUEUED := by
  induction fuel with
  | zero => intro s hv start j h; simpa [dequeue_loop] using h
  | succ fuel ih =>
    intro s hv start j h
    match start with
    | none => simpa [dequeue_loop] using h
    | some k =>
      cases htail : (s.versions hv).tail_node with
      | some t => simpa [dequeue_loop, htail] using h
      | none =>
        by_cases hstate : (s.nodes k).state = .ENQUEUED
        · by_cases hjk : j = k <;>
            simp [dequeue_loop, htail, hstate, SeqState.setNode, hjk, h]
        · simpa [dequeue_loop, htail, hstate] using ih s hv ((s.nodes k).next) j h

/-- When the dequeue traversal exits with a node and a delivered datum,
that node's flag was ENQUEUED when the winning exchange ran (the loop
itself never writes anything but DEQUEUED, so the flag was ENQUEUED in
the entry state as well), the exchange left it DEQUEUED, and the
delivered datum is that node's datum. -/
theorem dequeue_loop_found_spec (fuel : Nat) :
    ∀ (s : SeqState) (hv : Nat) (start : Option Nat) (i d : Nat),
      (dequeue_loop fuel s hv start).1 = some i →
      (dequeue_loop fuel s hv start).2.1 = some d →
      (s.nodes i).state = .ENQUEUED ∧
      ((dequeue_loop fuel s hv start).2.2.nodes i).state = .DEQUEUED ∧
      d = (s.nodes i).datum := by
  induction fuel with
  | zero => intro s hv start i d _ h2; simp [dequeue_loop] at h2
  | succ fuel ih =>
    intro s hv start i d h1 h2
    match start with
    | none => simp [dequeue_loop] at h2
    | some k =>
      cases htail : (s.versions hv).tail_node with
      | some t => simp [dequeue_loop, htail] at h2
      | none =>
        by_cases hstate : (s.nodes k).state = .ENQUEUED
        · have heq : dequeue_loop (fuel + 1) s hv (some k) =
              (some k, some ((s.nodes k).datum),
               s.setNode k (fun n => { n with state := .DEQUEUED })) := by
            simp [dequeue_loop, htail, hstate, SeqState.setNode]
          rw [heq] at h1 h2
          simp only [Option.some.injEq] at h1 h2
          subst h1
          refine ⟨hstate, ?_, h2.symm⟩
          rw [heq]
          simp [SeqState.setNode]
        · have heq : dequeue_loop (fuel + 1) s hv (some k) =
              dequeue_loop fuel s hv ((s.nodes k).next) := by
            simp [dequeue_loop, htail, hstate]
          rw [heq] at h1 h2 ⊢
          exact ih s hv _ i d h1 h2

/-! ## Claim C1 -/

/-- Claim C1: a node's datum is delivered at most once.  First, claiming
is a single atomic exchange of the flag to DEQUEUED, so any interleaving
of concurrent claim attempts on one node is a sequence of claimStep
exchanges, and such a sequence wins at most once from any starting flag.
Second, the dequeue traversal delivers a datum only by an exchange that
returned ENQUEUED and left DEQUEUED.  Third, the traversal never resets
a DEQUEUED flag to ENQUEUED, so a dequeuer whose exchange observes an
already-dequeued flag skips the node without delivering it. -/
theorem node_delivered_at_most_once :
    (∀ (st : scq_node_state) (n : Nat), runClaims st n ≤ 1) ∧
    (∀ (fuel : Nat) (s : SeqState) (hv : Nat) (start : Option Nat) (i d : Nat),
      (dequeue_loop fuel s hv start).1 = some i →
      (dequeue_loop fuel s hv start).2.1 = some d →
      (s.nodes i).state = .ENQUEUED ∧
      ((dequeue_loop fuel s hv start).2.2.nodes i).state = .DEQUEUED ∧
      d = (s.nodes i).datum) ∧
    (∀ (fuel : Nat) (s : SeqState) (hv : Nat) (start : Option Nat) (j : Nat),
      (s.nodes j).state = .DEQUEUED →
      ((dequeue_loop fuel s hv start).2.2.nodes j).state = .DEQUEUED) := by
  refine ⟨?_, dequeue_loop_found_spec, dequeue_loop_keeps_dequeued⟩
  intro st n
  match st, n with
  | _, 0 => exact Nat.zero_le 1
  | .ENQUEUED, n + 1 =>
    simp only [runClaims, claimStep]
    rw [if_pos (by simp)]
    simp [runClaims_of_ne_enqueued n .DEQUEUED (by simp)]
  | .DEQUEUED, n + 1 =>
    simp [runClaims_of_ne_enqueued (n + 1) .DEQUEUED (by simp)]
  | .FREE, n + 1 =>
    simp [runClaims_of_ne_enqueued (n + 1) .FREE (by simp)]

/-- Witness for C1: on a one-node queue, two claim attempts win exactly
once, and the traversal delivers datum 5 from node 0 by flipping its
ENQUEUED flag to DEQUEUED. -/
theorem node_delivered_at_most_once_witness :
    runClaims .ENQUEUED 2 ≤ 1 ∧
    (dequeue_loop 2 oneEnqueue 0 (some 0)).1 = some 0 ∧
    (dequeue_loop 2 oneEnqueue 0 (some 0)).2.1 = some 5 ∧
    (oneEnqueue.nodes 0).state = .ENQUEUED ∧
    ((dequeue_loop 2 oneEnqueue 0 (some 0)).2.2.nodes 0).state = .DEQUEUED :=
  ⟨node_delivered_at_most_once.1 .ENQUEUED 2, rfl, rfl,
   (node_delivered_at_most_once.2.1 2 oneEnqueue 0 (some 0) 0 5 rfl rfl).1,
   (node_delivered_at_most_once.2.1 2 oneEnqueue 0 (some 0) 0 5 rfl rfl).2.1⟩

/-! ## Claim C4: helper lemmas -/

/-- scq_free_node touches only node cells. -/
theorem scq_free_node_versions (s : SeqState) (i : Nat) :
    (scq_free_node s i).versions = s.versions := by
  unfold scq_free_node
  split <;> rfl

/-- scq_free_node keeps the version count. -/
theorem scq_free_node_numVersions (s : SeqState) (i : Nat) :
    (scq_free_node s i).numVersions = s.numVersions := by
  unfold scq_free_node
  split <;> rfl

/-- freeNodeRange touches only node cells. -/
theorem freeNodeRange_versions (fuel : Nat) :
    ∀ (s : SeqState) (a b : Option Nat),
      (freeNodeRange s fuel a b).versions = s.versions ∧
      (freeNodeRange s fuel a b).numVersions = s.numVersions := by
  induction fuel with
  | zero => intro s a b; exact ⟨rfl, rfl⟩
  | succ fuel ih =>
    intro s a b
    match a with
    | none => exact ⟨rfl, rfl⟩
    | some i =>
      by_cases h : some i = b
      · simp [freeNodeRange, h]
      · simp only [freeNodeRange, if_neg h]
        constructor
        · rw [(ih _ _ _).1, scq_free_node_versions]
        · rw [(ih _ _ _).2, scq_free_node_numVersions]

/-- The node-range walk is empty when head and tail coincide. -/
theorem freeNodeRange_refl (fuel : Nat) (s : SeqState) (i : Nat) :
    freeNodeRange s fuel (some i) (some i) = s := by
  cases fuel <;> simp [freeNodeRange]

/-! ## Claim C4 -/

/-- Claim C4: the reclaimer callback frees a head version only when it is
the oldest live chain link.  When the head_version_prev word of the
version was non-null before the release mask was ORed in, the callback
returns having done nothing but set the bit (no node or version is
freed).  When the pre-OR word was null and the version is a closed chain
link of the shape this queue produces — its range is the single node
[t, t], a successor version nx is linked and the successor's release bit
is still clear — the callback executes exactly the C statement sequence
on non-null pointers: it frees the range node (scq_free_node t), frees
the version object, and CASes the successor's head_version_prev back to
null, stopping the cascade; the conclusion gives the entire resulting
state, so nothing else is touched.  Finally, in the race between the
version's own last releaser (fetch_or) and the cascade from the older
version (load then CAS-to-null), every interleaving of the three atomic
accesses frees the version exactly once: exactly one of the two threads
decides to free it. -/
theorem head_version_freed_exactly_once :
    (∀ (s : SeqState) (hv : Nat), prevWordIsNull (s.versions hv) = false →
      scq_head_version_free s hv
        = s.setVersion hv (fun v => { v with prev_release_bit := true })) ∧
    (∀ (s : SeqState) (hv t nx : Nat),
      prevWordIsNull (s.versions hv) = true →
      (s.versions hv).head_node = some t →
      (s.versions hv).tail_node = some t →
      (s.versions hv).head_version_next = some nx →
      (s.versions nx).prev_release_bit = false →
      hv ≠ nx →
      scq_head_version_free s hv
        = ((scq_free_node (s.setVersion hv
              (fun v => { v with prev_release_bit := true })) t).setVersion hv
              (fun v => { v with freed := true })).setVersion nx
              (fun u => { u with head_version_prev := none,
                                 prev_release_bit := false })) ∧
    (∀ (u : Nat) (sched : List Bool),
      sched ∈ [[true, false, false], [false, true, false], [false, false, true]] →
      (runProtocol sched (protStart u)).relFrees
        ≠ (runProtocol sched (protStart u)).cascFrees) := by
  refine ⟨?_, ?_, ?_⟩
  · intro s hv h
    simp [scq_head_version_free, h]
  · intro s hv t nx hnull hht htt hnx hbit hne
    simp only [scq_head_version_free]
    rw [if_pos hnull]
    have e1 : ((s.setVersion hv fun v =>
        { v with prev_release_bit := true }).versions hv).head_node = some t := by
      simp [hht]
    have e2 : ((s.setVersion hv fun v =>
        { v with prev_release_bit := true }).versions hv).tail_node = some t := by
      simp [htt]
    have e3 : ((s.setVersion hv fun v =>
        { v with prev_release_bit := true }).versions hv).head_version_next
        = some nx := by
      simp [hnx]
    simp only [scq_head_version_free_go, e1, e2, e3, freeNodeRange_refl]
    have e4 : (((scq_free_node (s.setVersion hv fun v =>
        { v with prev_release_bit := true }) t).setVersion hv
        (fun v => { v with freed := true })).versions nx).prev_release_bit
        = false := by
      have hxv : ¬ (nx = hv) := fun h => hne h.symm
      simp [hxv, scq_free_node_versions, hbit]
    rw [if_neg (by rw [e4]; exact Bool.false_ne_true)]
  · intro u sched hsched
    fin_cases hsched <;>
      simp [runProtocol, relStep, cascStep, protStart]

/-- Witness for C4: on a version whose chain predecessor is still linked
the callback only sets the release bit; on the mid-drain state of a
two-node queue — version 0 closed over node 0 with successor version 1
live — the callback frees node 0 and version 0 and resets the prev
pointer of version 1, and nothing else; and the schedule running the own
fetch_or first makes the cascade and not the own releaser free the
version. -/
theorem head_version_freed_exactly_once_witness :
    prevWordIsNull (c4WitnessState.versions 1) = false ∧
    scq_head_version_free c4WitnessState 1
      = c4WitnessState.setVersion 1 (fun v => { v with prev_release_bit := true }) ∧
    prevWordIsNull (reclaimWitnessState.versions 0) = true ∧
    (reclaimWitnessState.versions 0).tail_node = some 0 ∧
    (reclaimWitnessState.versions 0).head_version_next = some 1 ∧
    scq_head_version_free reclaimWitnessState 0
      = ((scq_free_node (reclaimWitnessState.setVersion 0
            (fun v => { v with prev_release_bit := true })) 0).setVersion 0
            (fun v => { v with freed := true })).setVersion 1
            (fun u => { u with head_version_prev := none,
                               prev_release_bit := false }) ∧
    ((scq_head_version_free reclaimWitnessState 0).nodes 0).freed = true ∧
    ((scq_head_version_free reclaimWitnessState 0).versions 0).freed = true ∧
    ((scq_head_version_free reclaimWitnessState 0).versions 1).head_version_prev
      = none ∧
    (runProtocol [true, false, false] (protStart 7)).relFrees
      ≠ (runProtocol [true, false, false] (protStart 7)).cascFrees :=
  ⟨rfl, head_version_freed_exactly_once.1 c4WitnessState 1 rfl, rfl, rfl, rfl,
   head_version_freed_exactly_once.2.1 reclaimWitnessState 0 0 1 rfl rfl rfl rfl rfl
     (by decide),
   rfl, rfl, rfl,
   head_version_freed_exactly_once.2.2 7 [true, false, false] (by simp)⟩

/-! ## Claim C2: helper lemmas -/

/-- The first enqueue installs node 0 and head version 0. -/
theorem enqueue_first (v : Nat) : scq_enqueue scq_init v = stateAfterDeq [v] 0 := by
  ext j
  all_goals
    simp [scq_enqueue, scq_init, stateAfterDeq, deqNode, deqVersion, SeqState.addNode,
      SeqState.setNode, SeqState.addVersion, SeqState.setVersion, atomsnap_exchange_version]
  all_goals
    by_cases hj : j = 0 <;> simp [hj]

/-- An enqueue onto an enqueue-phase state of a non-empty run appends one
node: the tail exchange returns the previous tail, which gets linked to
the fresh node; the gate is untouched. -/
theorem enqueue_step (ws : List Nat) (v : Nat) (hws : ws ≠ []) :
    scq_enqueue (stateAfterDeq ws 0) v = stateAfterDeq (ws ++ [v]) 0 := by
  have hn : 0 < ws.length := List.length_pos.mpr hws
  refine SeqState.ext ?_ ?_ ?_ ?_ ?_ ?_ ?_
  · funext j
    simp only [scq_enqueue, stateAfterDeq, SeqState.addNode, SeqState.setNode,
      SeqState.setVersion, SeqState.addVersion, atomsnap_exchange_version,
      List.length_append, List.length_singleton]
    by_cases hj2 : j = ws.length
    · subst hj2
      simp [deqNode, List.getD_append_right, Nat.le_refl, Nat.lt_irrefl]
      omega
    · by_cases hj1 : j = ws.length - 1
      · subst hj1
        simp [deqNode, hj2, Nat.sub_lt hn Nat.one_pos]
        rw [if_pos (by omega), List.getElem?_append, if_pos (by omega),
          List.getElem?_eq_getElem (by omega), Option.getD_some]
        have hidx : ws.length - 1 + 1 = ws.length := by omega
        rw [hidx]
      · by_cases hj3 : j < ws.length
        · simp [deqNode, hj1, hj2, hj3, Nat.lt_add_one_of_lt hj3]
          refine ⟨by omega, ?_⟩
          rw [List.getElem_append_left hj3]
        · simp [deqNode, hj1, hj2, hj3]
          rw [if_neg (by omega)]
  · -- numNodes
    simp [scq_enqueue, stateAfterDeq, SeqState.addNode, SeqState.setNode]
  · -- versions
    funext j
    simp only [scq_enqueue, stateAfterDeq, SeqState.addNode, SeqState.setNode,
      SeqState.setVersion, SeqState.addVersion, atomsnap_exchange_version,
      List.length_append, List.length_singleton]
    have h1 : (0 + 1) ⊓ ws.length = 1 := by omega
    have h2 : (0 + 1) ⊓ (ws.length + 1) = 1 := by omega
    rw [h1, h2]
    by_cases hj : j < 1 <;> simp [hj, deqVersion]
  · -- numVersions
    simp only [scq_enqueue, stateAfterDeq, SeqState.addNode, SeqState.setNode,
      SeqState.setVersion, SeqState.addVersion, atomsnap_exchange_version,
      List.length_append, List.length_singleton]
    omega
  · -- tail
    simp only [scq_enqueue, stateAfterDeq, SeqState.addNode, SeqState.setNode,
      SeqState.setVersion, SeqState.addVersion, atomsnap_exchange_version,
      List.length_append, List.length_singleton]
    congr 1
  · -- current
    simp only [scq_enqueue, stateAfterDeq, SeqState.addNode, SeqState.setNode,
      SeqState.setVersion, SeqState.addVersion, atomsnap_exchange_version,
      List.length_append, List.length_singleton]
    have : 0 ⊓ (ws.length - 1) = 0 ⊓ (ws.length + 1 - 1) := by omega
    rw [this]
  · -- head_init_flag
    simp only [scq_enqueue, stateAfterDeq, SeqState.addNode, SeqState.setNode,
      SeqState.setVersion, SeqState.addVersion, atomsnap_exchange_version]

/-- Folding the enqueues of vs over an enqueue-phase state extends it. -/
theorem enqueueN_from (vs : List Nat) :
    ∀ ws : List Nat, ws ≠ [] →
      enqueueN (stateAfterDeq ws 0) vs = stateAfterDeq (ws ++ vs) 0 := by
  induction vs with
  | nil => intro ws _; simp [enqueueN]
  | cons v vs ih =>
    intro ws h
    show enqueueN (scq_enqueue (stateAfterDeq ws 0) v) vs = _
    rw [enqueue_step ws v h, ih (ws ++ [v]) (by simp), List.append_assoc]
    rfl

/-- After the n enqueues of a non-empty vs the queue is in the k = 0
dequeue-phase state. -/
theorem enqueueN_init (vs : List Nat) (h : vs ≠ []) :
    enqueueN scq_init vs = stateAfterDeq vs 0 := by
  match vs, h with
  | v :: vs, _ =>
    show enqueueN (scq_enqueue scq_init v) vs = _
    rw [enqueue_first v, enqueueN_from vs [v] (by simp)]
    rfl

/-- A node other than node k is unchanged between the k and k+1 dequeue
states. -/
theorem deqNode_succ (vs : List Nat) (k j : Nat) (hj : j ≠ k) :
    deqNode vs (k + 1) j = deqNode vs k j := by
  have h1 : (j < k + 1) ↔ (j < k) := by omega
  have h2 : (j < (k + 1) ⊓ (vs.length - 1)) ↔ (j < k ⊓ (vs.length - 1)) := by omega
  simp [deqNode, h1, h2]

/-- Node k in the k+1 dequeue state when it is not the last node:
claimed and already freed. -/
theorem deqNode_succ_self (vs : List Nat) (k : Nat) (hk1 : k + 1 < vs.length) :
    deqNode vs (k + 1) k =
      { next := some (k + 1), datum := vs.getD k 0, state := .DEQUEUED,
        is_node_pool := false, freed := true } := by
  simp [deqNode, hk1, (by omega : k < (k + 1) ⊓ (vs.length - 1))]

/-- Node k in the k+1 dequeue state when it is the last node: claimed but
never freed (its version is never superseded). -/
theorem deqNode_succ_last (vs : List Nat) (k : Nat) (hk1 : k + 1 = vs.length) :
    deqNode vs (k + 1) k =
      { next := none, datum := vs.getD k 0, state := .DEQUEUED,
        is_node_pool := false, freed := false } := by
  simp [deqNode, (by omega : ¬ (k + 1 < vs.length)),
    (by omega : ¬ (k < (k + 1) ⊓ (vs.length - 1)))]
  omega

/-- A version other than version k is unchanged between the k and k+1
dequeue states. -/
theorem deqVersion_succ (vs : List Nat) (k i : Nat) (hi : i ≠ k) :
    deqVersion vs (k + 1) i = deqVersion vs k i := by
  have h : (i < (k + 1) ⊓ (vs.length - 1)) ↔ (i < k ⊓ (vs.length - 1)) := by omega
  simp only [deqVersion, h]

/-- Version k in the k+1 dequeue state when node k is not last: closed
and freed, linking to version k+1 and carrying tail node k. -/
theorem deqVersion_succ_self (vs : List Nat) (k : Nat) (hk1 : k + 1 < vs.length) :
    deqVersion vs (k + 1) k =
      { head_version_prev := none, prev_release_bit := true,
        head_version_next := some (k + 1), tail_node := some k, head_node := some k,
        refcnt := 0, freed := true } := by
  rw [deqVersion, if_pos (by omega)]

/-- Version k+1 of the k+1 dequeue state (the freshly installed current
version) when node k is not last. -/
theorem deqVersion_succ_next (vs : List Nat) (k : Nat) :
    deqVersion vs (k + 1) (k + 1) =
      { head_version_prev := none, prev_release_bit := false,
        head_version_next := none, tail_node := none, head_node := some (k + 1),
        refcnt := 0, freed := false } := by
  rw [deqVersion, if_neg (by omega)]

/-- Version k in the k+1 dequeue state when node k is last: still the
open current version. -/
theorem deqVersion_succ_last (vs : List Nat) (k : Nat) (hk1 : k + 1 = vs.length) :
    deqVersion vs (k + 1) k =
      { head_version_prev := none, prev_release_bit := false,
        head_version_next := none, tail_node := none, head_node := some k,
        refcnt := 0, freed := false } := by
  rw [deqVersion, if_neg (by omega)]

/-- One dequeue from the k-dequeues state of a non-empty run claims node
k, delivers vs[k], and (when node k is not the last) advances the head
and reclaims the superseded version, reaching the (k+1)-dequeues state. -/
theorem dequeue_step (vs : List Nat) (k : Nat) (hk : k < vs.length) :
    scq_dequeue (stateAfterDeq vs k) = (some (vs.getD k 0), stateAfterDeq vs (k + 1)) := by
  have hn : 0 < vs.length := Nat.lt_of_le_of_lt (Nat.zero_le k) hk
  have hmin : min k (vs.length - 1) = k := by omega
  have hcur : (stateAfterDeq vs k).current = some k := by
    simp [stateAfterDeq, hmin]
  have hverk : (stateAfterDeq vs k).versions k = deqVersion vs k k := by
    simp [stateAfterDeq]
    omega
  have hdvk : deqVersion vs k k =
      { head_version_prev := none, prev_release_bit := false, head_version_next := none,
        tail_node := none, head_node := some k, refcnt := 0, freed := false } := by
    rw [deqVersion, if_neg (by omega)]
  have hnodek : (stateAfterDeq vs k).nodes k = deqNode vs k k := by
    simp [stateAfterDeq, hk]
  have hdnk : deqNode vs k k =
      { next := if k + 1 < vs.length then some (k + 1) else none,
        datum := vs.getD k 0, state := .ENQUEUED, is_node_pool := false,
        freed := false } := by
    rw [deqNode]
    simp
  simp only [scq_dequeue]
  rw [if_neg (by simp [stateAfterDeq])]
  have hnum : (stateAfterDeq vs k).numNodes = vs.length := rfl
  rw [hnum]
  simp only [scq_dequeue_go]
  have hacq : atomsnap_acquire_version (stateAfterDeq vs k)
      = (some k, (stateAfterDeq vs k).setVersion k
          (fun v => { v with refcnt := v.refcnt + 1 })) := by
    simp only [atomsnap_acquire_version, hcur]
  rw [hacq]
  dsimp only
  have hS1 : ((stateAfterDeq vs k).setVersion k
      (fun v => { v with refcnt := v.refcnt + 1 })).versions k
      = { head_version_prev := none, prev_release_bit := false, head_version_next := none,
          tail_node := none, head_node := some k, refcnt := 1, freed := false } := by
    simp [hverk, hdvk]
  have hS1n : ((stateAfterDeq vs k).setVersion k
      (fun v => { v with refcnt := v.refcnt + 1 })).nodes k
      = { next := if k + 1 < vs.length then some (k + 1) else none,
          datum := vs.getD k 0, state := .ENQUEUED, is_node_pool := false,
          freed := false } := by
    simp [hnodek, hdnk]
  have hloop : dequeue_loop (vs.length + 1)
      ((stateAfterDeq vs k).setVersion k (fun v => { v with refcnt := v.refcnt + 1 })) k
      (some k)
      = (some k, some (vs.getD k 0),
         ((stateAfterDeq vs k).setVersion k
            (fun v => { v with refcnt := v.refcnt + 1 })).setNode k
           (fun n => { n with state := .DEQUEUED })) := by
    simp only [dequeue_loop, hS1, hS1n]
    simp [SeqState.setNode, hS1n, hnodek, hdnk, List.getD]
  simp only [setVersion_numNodes, hnum, hS1]
  rw [hloop]
  dsimp only
  rcases Nat.lt_or_ge (k + 1) vs.length with hcase | hcase
  · -- node k is not the last: adjust_head runs and the old version is
    -- reclaimed by the release callback
    have hminv : (k + 1) ⊓ vs.length = k + 1 := by omega
    have hnext : ((((stateAfterDeq vs k).setVersion k
          (fun v => { v with refcnt := v.refcnt + 1 })).setNode k
          (fun n => { n with state := scq_node_state.DEQUEUED })).nodes k).next
        = some (k + 1) := by
      simp [hS1n, hcase]
    rw [hnext]
    dsimp only
    refine congrArg (Prod.mk (some (vs.getD k 0))) ?_
    set S2 := ((stateAfterDeq vs k).setVersion k fun v =>
        { v with refcnt := v.refcnt + 1 }).setNode k fun n =>
        { n with state := scq_node_state.DEQUEUED } with hS2def
    have hS2nv : S2.numVersions = k + 1 := by
      rw [hS2def]
      simp [stateAfterDeq, hminv]
    have hS2cur : S2.current = some k := by
      rw [hS2def]
      simp [hcur]
    have hadj : adjust_head S2 k (k + 1) k =
        (({ (S2.addVersion.setVersion (k + 1) fun v =>
              { v with head_version_prev := some k, head_version_next := none,
                       tail_node := none, head_node := some (k + 1) }) with
            current := some (k + 1) }).setVersion k fun v =>
              { v with head_version_next := some (k + 1) }).setVersion k fun v =>
              { v with tail_node := some k } := by
      simp only [adjust_head, adjust_head_traced, hS2nv, addVersion_current,
        setVersion_current, hS2cur, if_true, eq_self_iff_true]
    rw [hadj]
    have hkne : ¬ (k = k + 1) := by omega
    have hkne2 : ¬ (k + 1 = k) := by omega
    set S7 := (({ (S2.addVersion.setVersion (k + 1) fun v =>
          { v with head_version_prev := some k, head_version_next := none,
                   tail_node := none, head_node := some (k + 1) }) with
        current := some (k + 1) }).setVersion k fun v =>
          { v with head_version_next := some (k + 1) }).setVersion k fun v =>
          { v with tail_node := some k } with hS7def
    have hS2vk : S2.versions k =
        { head_version_prev := none, prev_release_bit := false, head_version_next := none,
          tail_node := none, head_node := some k, refcnt := 1, freed := false } := by
      rw [hS2def]
      simp [hverk, hdvk]
    have hS2nk : S2.nodes k =
        { next := some (k + 1), datum := vs.getD k 0, state := scq_node_state.DEQUEUED,
          is_node_pool := false, freed := false } := by
      rw [hS2def]
      simp [hS1n, hcase]
    have hS7vk : S7.versions k =
        { head_version_prev := none, prev_release_bit := false,
          head_version_next := some (k + 1), tail_node := some k, head_node := some k,
          refcnt := 1, freed := false } := by
      rw [hS7def]
      simp [hS2vk, hS2nv, hkne]
    have hS7v1 : S7.versions (k + 1) =
        { head_version_prev := some k, prev_release_bit := false,
          head_version_next := none, tail_node := none, head_node := some (k + 1),
          refcnt := 0, freed := false } := by
      rw [hS7def]
      simp [hS2nv, hkne2]
    have hS7nk : S7.nodes k =
        { next := some (k + 1), datum := vs.getD k 0, state := scq_node_state.DEQUEUED,
          is_node_pool := false, freed := false } := by
      rw [hS7def]
      simp [hS2nk]
    have hS7cur : S7.current = some (k + 1) := by
      rw [hS7def]
      simp
    have hS8vk : (S7.setVersion k fun v => { v with refcnt := v.refcnt - 1 }).versions k
        = { head_version_prev := none, prev_release_bit := false,
            head_version_next := some (k + 1), tail_node := some k, head_node := some k,
            refcnt := 0, freed := false } := by
      simp [hS7vk]
    have hrel1 : atomsnap_release_version S7 k
        = scq_head_version_free (S7.setVersion k fun v =>
            { v with refcnt := v.refcnt - 1 }) k := by
      simp only [atomsnap_release_version]
      rw [if_pos (by simp [hS7vk, hS7cur, hkne2])]
    rw [hrel1]
    have hS9vk : ((S7.setVersion k fun v => { v with refcnt := v.refcnt - 1 }).setVersion k
        fun v => { v with prev_release_bit := true }).versions k
        = { head_version_prev := none, prev_release_bit := true,
            head_version_next := some (k + 1), tail_node := some k, head_node := some k,
            refcnt := 0, freed := false } := by
      simp [hS7vk]
    have hS9nk : ((S7.setVersion k fun v => { v with refcnt := v.refcnt - 1 }).setVersion k
        fun v => { v with prev_release_bit := true }).nodes k
        = { next := some (k + 1), datum := vs.getD k 0, state := scq_node_state.DEQUEUED,
            is_node_pool := false, freed := false } := by
      simp [hS7nk]
    have hfree : scq_head_version_free (S7.setVersion k fun v =>
        { v with refcnt := v.refcnt - 1 }) k =
        (((((S7.setVersion k fun v => { v with refcnt := v.refcnt - 1 }).setVersion k
            fun v => { v with prev_release_bit := true }).setNode k
            fun n => { n with freed := true }).setVersion k
            fun w => { w with freed := true }).setVersion (k + 1)
            fun u => { u with head_version_prev := none, prev_release_bit := false }) := by
      simp only [scq_head_version_free]
      rw [if_pos (by simp [prevWordIsNull, hS7vk])]
      simp only [scq_head_version_free_go, hS9vk, freeNodeRange_refl]
      simp only [scq_free_node, hS9nk]
      simp only [if_true]
      have hbit : ((((S7.setVersion k fun v => { v with refcnt := v.refcnt - 1 }).setVersion k
          fun v => { v with prev_release_bit := true }).setNode k
          fun n => { n with freed := true }).setVersion k
          fun w => { w with freed := true }).versions (k + 1)
          = S7.versions (k + 1) := by
        simp [hkne2]
      rw [hbit, hS7v1]
      rw [if_neg (by simp)]
    rw [hfree]
    refine SeqState.ext ?_ ?_ ?_ ?_ ?_ ?_ ?_
    · funext j
      rw [hS7def, hS2def]
      by_cases hj : j = k
      · rw [hj]
        simp [stateAfterDeq, hk, hdnk, hcase, deqNode_succ_self vs k hcase]
      · simp [stateAfterDeq, hj, deqNode_succ vs k j hj]
    · rw [hS7def, hS2def]
      simp [stateAfterDeq]
    · funext i
      rw [hS7def, hS2def]
      by_cases hi : i = k
      · rw [hi]
        simp [stateAfterDeq, hminv, hkne, hkne2, hdvk,
          (by omega : k < k + 1 + 1), hk, hcase,
          (by omega : k < (k + 1 + 1) ⊓ vs.length),
          deqVersion_succ_self vs k hcase]
      · by_cases hi1 : i = k + 1
        · rw [hi1]
          simp [stateAfterDeq, hminv, hkne, hkne2, hi,
            (by omega : k + 1 < (k + 1 + 1) ⊓ vs.length), hcase,
            deqVersion_succ_next vs k]
        · simp [stateAfterDeq, hminv, hi, hi1, deqVersion_succ vs k i hi]
          split_ifs <;> first | rfl | omega
    · rw [hS7def, hS2def]
      simp [stateAfterDeq]
      omega
    · rw [hS7def, hS2def]
      simp [stateAfterDeq]
    · rw [hS7def, hS2def]
      simp [stateAfterDeq, (by omega : (k + 1) ⊓ (vs.length - 1) = k + 1)]
    · rw [hS7def, hS2def]
      simp [stateAfterDeq]
  · -- node k is the last node: no head advance, the version stays current
    have hlen : vs.length = k + 1 := by omega
    have hnextB : ((((stateAfterDeq vs k).setVersion k
          (fun v => { v with refcnt := v.refcnt + 1 })).setNode k
          (fun n => { n with state := scq_node_state.DEQUEUED })).nodes k).next
        = none := by
      simp [hS1n, (by omega : ¬ (k + 1 < vs.length))]
      omega
    rw [hnextB]
    dsimp only
    refine congrArg (Prod.mk (some (vs.getD k 0))) ?_
    set S2 := ((stateAfterDeq vs k).setVersion k fun v =>
        { v with refcnt := v.refcnt + 1 }).setNode k fun n =>
        { n with state := scq_node_state.DEQUEUED } with hS2def
    have hS2curB : S2.current = some k := by
      rw [hS2def]
      simp [hcur]
    have hrelB : atomsnap_release_version S2 k
        = S2.setVersion k (fun v => { v with refcnt := v.refcnt - 1 }) := by
      simp only [atomsnap_release_version]
      rw [if_neg (by simp [hS2curB])]
    rw [hrelB]
    refine SeqState.ext ?_ ?_ ?_ ?_ ?_ ?_ ?_
    · funext j
      rw [hS2def]
      by_cases hj : j = k
      · rw [hj]
        simp [stateAfterDeq, hk, hdnk, (by omega : ¬ (k + 1 < vs.length)),
          deqNode_succ_last vs k hlen.symm]
        omega
      · simp [stateAfterDeq, hj, deqNode_succ vs k j hj]
    · rw [hS2def]
      simp [stateAfterDeq]
    · funext i
      rw [hS2def]
      by_cases hi : i = k
      · rw [hi]
        simp [stateAfterDeq, hdvk, hk, (by omega : k < (k + 1) ⊓ vs.length),
          (by omega : k < (k + 1 + 1) ⊓ vs.length),
          deqVersion_succ_last vs k hlen.symm]
        split_ifs <;> first | rfl | omega
      · have hiffB : (i < (k + 1 + 1) ⊓ vs.length) ↔ (i < (k + 1) ⊓ vs.length) := by
          omega
        simp [stateAfterDeq, hi, deqVersion_succ vs k i hi]
        split_ifs <;> first | rfl | omega
    · rw [hS2def]
      simp [stateAfterDeq]
      omega
    · rw [hS2def]
      simp [stateAfterDeq]
    · rw [hS2def]
      simp [stateAfterDeq, hmin, (by omega : (k + 1) ⊓ (vs.length - 1) = k)]
    · rw [hS2def]
      simp [stateAfterDeq]

/-- The traversal loop run from a null node pointer finds nothing. -/
theorem dequeue_loop_none (fuel : Nat) (s : SeqState) (hv : Nat) :
    dequeue_loop fuel s hv none = (none, none, s) := by
  cases fuel <;> simp [dequeue_loop]

/-- A dequeue from the fully drained state finds nothing and leaves the
state unchanged: the only remaining node is already DEQUEUED and its
version stays current. -/
theorem dequeue_step_empty (vs : List Nat) (h : vs ≠ []) :
    scq_dequeue (stateAfterDeq vs vs.length) = (none, stateAfterDeq vs vs.length) := by
  have hn : 0 < vs.length := List.length_pos.mpr h
  have hmin2 : min vs.length (vs.length - 1) = vs.length - 1 := by omega
  have hcur2 : (stateAfterDeq vs vs.length).current = some (vs.length - 1) := by
    simp [stateAfterDeq, hmin2]
  have hver2 : (stateAfterDeq vs vs.length).versions (vs.length - 1)
      = { head_version_prev := none, prev_release_bit := false, head_version_next := none,
          tail_node := none, head_node := some (vs.length - 1), refcnt := 0,
          freed := false } := by
    simp only [stateAfterDeq]
    rw [if_pos (by omega), deqVersion, if_neg (by omega)]
  have hnode2 : (stateAfterDeq vs vs.length).nodes (vs.length - 1)
      = { next := none, datum := vs.getD (vs.length - 1) 0, state := .DEQUEUED,
          is_node_pool := false, freed := false } := by
    simp only [stateAfterDeq]
    rw [if_pos (by omega), deqNode]
    simp [(by omega : ¬ (vs.length - 1 + 1 < vs.length)),
      (by omega : vs.length - 1 < vs.length),
      (by omega : ¬ (vs.length - 1 < vs.length ⊓ (vs.length - 1)))]
    omega
  simp only [scq_dequeue]
  rw [if_neg (by simp [stateAfterDeq])]
  have hnum2 : (stateAfterDeq vs vs.length).numNodes = vs.length := rfl
  rw [hnum2]
  simp only [scq_dequeue_go]
  have hacq2 : atomsnap_acquire_version (stateAfterDeq vs vs.length)
      = (some (vs.length - 1), (stateAfterDeq vs vs.length).setVersion (vs.length - 1)
          (fun v => { v with refcnt := v.refcnt + 1 })) := by
    simp only [atomsnap_acquire_version, hcur2]
  rw [hacq2]
  dsimp only
  have hSv : ((stateAfterDeq vs vs.length).setVersion (vs.length - 1)
      (fun v => { v with refcnt := v.refcnt + 1 })).versions (vs.length - 1)
      = { head_version_prev := none, prev_release_bit := false, head_version_next := none,
          tail_node := none, head_node := some (vs.length - 1), refcnt := 1,
          freed := false } := by
    simp [hver2]
  have hSn : ((stateAfterDeq vs vs.length).setVersion (vs.length - 1)
      (fun v => { v with refcnt := v.refcnt + 1 })).nodes (vs.length - 1)
      = { next := none, datum := vs.getD (vs.length - 1) 0, state := .DEQUEUED,
          is_node_pool := false, freed := false } := by
    simp [hnode2]
  have hloop2 : dequeue_loop (vs.length + 1)
      ((stateAfterDeq vs vs.length).setVersion (vs.length - 1)
        (fun v => { v with refcnt := v.refcnt + 1 })) (vs.length - 1)
      (some (vs.length - 1))
      = (none, none, (stateAfterDeq vs vs.length).setVersion (vs.length - 1)
          (fun v => { v with refcnt := v.refcnt + 1 })) := by
    simp only [dequeue_loop, hSv, hSn]
    simp [dequeue_loop_none]
  simp only [setVersion_numNodes, hnum2, hSv]
  rw [hloop2]
  dsimp only
  have hrel2 : atomsnap_release_version ((stateAfterDeq vs vs.length).setVersion
      (vs.length - 1) (fun v => { v with refcnt := v.refcnt + 1 })) (vs.length - 1)
      = ((stateAfterDeq vs vs.length).setVersion (vs.length - 1)
          (fun v => { v with refcnt := v.refcnt + 1 })).setVersion (vs.length - 1)
          (fun v => { v with refcnt := v.refcnt - 1 }) := by
    simp only [atomsnap_release_version]
    rw [if_neg (by simp [hcur2])]
  rw [hrel2]
  refine congrArg (Prod.mk none) ?_
  refine SeqState.ext ?_ rfl ?_ rfl rfl rfl rfl
  · funext j
    simp
  · funext i
    by_cases hi : i = vs.length - 1
    · rw [hi]
      simp
    · simp [hi]

/-- Running m = n - k dequeues from the k-dequeues state delivers the
remaining suffix of vs in order and drains the queue. -/
theorem dequeueN_from (vs : List Nat) :
    ∀ (m k : Nat), k + m = vs.length →
      dequeueN (stateAfterDeq vs k) m
        = ((vs.drop k).map some, stateAfterDeq vs vs.length) := by
  intro m
  induction m with
  | zero =>
    intro k hk
    have : k = vs.length := by omega
    subst this
    simp [dequeueN, List.drop_length]
  | succ m ih =>
    intro k hk
    have hklt : k < vs.length := by omega
    simp only [dequeueN, dequeue_step vs k hklt]
    rw [ih (k + 1) (by omega)]
    rw [List.drop_eq_getElem_cons hklt]
    simp [List.getD_eq_getElem vs 0 hklt]
    rw [List.drop_eq_getElem_cons
      (show k < (List.map some vs).length by simpa using hklt)]
    simp [List.getElem?_eq_getElem hklt]

/-- Every dequeue beyond the n-th returns not-found and leaves the
drained state in place. -/
theorem dequeueN_drained (vs : List Nat) (h : vs ≠ []) (m : Nat) :
    dequeueN (stateAfterDeq vs vs.length) m
      = (List.replicate m none, stateAfterDeq vs vs.length) := by
  induction m with
  | zero => rfl
  | succ m ih => simp [dequeueN, dequeue_step_empty vs h, ih, List.replicate_succ]

/-- Splitting a dequeue run. -/
theorem dequeueN_add (a : Nat) :
    ∀ (s : SeqState) (b : Nat),
      dequeueN s (a + b) = ((dequeueN s a).1 ++ (dequeueN (dequeueN s a).2 b).1,
                            (dequeueN (dequeueN s a).2 b).2) := by
  induction a with
  | zero => intro s b; simp [dequeueN]
  | succ a ih =>
    intro s b
    have hshape : a + 1 + b = (a + b) + 1 := by omega
    rw [hshape]
    simp only [dequeueN]
    rw [ih]
    simp

/-- A dequeue on the freshly initialized queue returns not-found. -/
theorem dequeue_on_init : scq_dequeue scq_init = (none, scq_init) := rfl

/-! ## Claim C2 -/

/-- Claim C2: single producer then single consumer.  After one thread
enqueues the n datums of vs and then performs n + m dequeues on the same
otherwise idle queue, the first n dequeues return found with the datums
in enqueue order v1, ..., vn, and every dequeue beyond the n-th returns
not-found — so exactly n dequeues succeed. -/
theorem scq_spsc_fifo (vs : List Nat) (m : Nat) :
    (dequeueN (enqueueN scq_init vs) (vs.length + m)).1
      = vs.map some ++ List.replicate m none := by
  rcases eq_or_ne vs [] with rfl | h
  · simp only [enqueueN, List.foldl_nil, List.length_nil, List.map_nil,
      List.nil_append, Nat.zero_add]
    induction m with
    | zero => rfl
    | succ m ih => simp [dequeueN, dequeue_on_init, ih, List.replicate_succ]
  · rw [enqueueN_init vs h, dequeueN_add]
    rw [dequeueN_from vs vs.length 0 (by omega)]
    simp [dequeueN_drained vs h m]

end SCQ
